import Mathlib

/-
Verification of the dolt database-provider / multi-environment layer.

This file gives a shallow embedding, in Lean 4, of the parts of the
repository that the specification talks about:

  - go/libraries/doltcore/sqle/database_provider.go
    (DoltDatabaseProvider: SessionDatabase, revision resolution,
     CloneDatabaseFromRemote, DropDatabase, standby wrapping,
     formatDbMapKeyName, the provider constructor), and
  - the multi-repo environment manager
    (MultiEnvForDirectory, enforceSingleFormat, dirToDBName).

Strings are modelled as lists of characters (Go strings are byte/rune
sequences; all names involved are treated at rune granularity).  Go maps
are modelled as association lists where insertion replaces an existing
binding.  External collaborators that are not part of the provided
sources (the doltdb storage layer, the network remote, the filesystem,
session system variables) are modelled as explicit oracle data carried
in a World structure; every such modelled definition is marked in its
doc comment.  Functions of the source that can recurse through the
provider (the on-demand read-replica clone retries the lookup) take an
explicit fuel argument; theorems are stated with enough fuel, and fuel
exhaustion is a distinguished outcome that never occurs in any theorem
conclusion.
-/

namespace Dolt

/-- Strings of the embedding: lists of characters. -/
abbrev Str := List Char

/-- Coercion from Lean string literals to embedded strings. -/
def strL (s : String) : Str := s.data

/-- Models strings.ToLower at the character level (ASCII letters; the
names handled by the provider are ASCII identifiers). -/
def charLower (c : Char) : Char := Char.toLower c

/-- Models strings.ToUpper at the character level (ASCII letters). -/
def charUpper (c : Char) : Char := Char.toUpper c

/-- Models strings.ToLower from the Go standard library. -/
def strToLower (s : Str) : Str := s.map charLower

/-- Models strings.ToUpper from the Go standard library. -/
def strToUpper (s : Str) : Str := s.map charUpper

/-- Models unicode.IsSpace restricted to the ASCII whitespace characters
(the names involved are ASCII). -/
def isSpaceGo (c : Char) : Bool :=
  c = ' ' ∨ c = '\t' ∨ c = '\n' ∨ c = '\x0d' ∨ c = '\x0b' ∨ c = '\x0c'

/-- Models strings.TrimSpace: removes leading and trailing whitespace. -/
def trimSpace (s : Str) : Str :=
  ((s.dropWhile isSpaceGo).reverse.dropWhile isSpaceGo).reverse

/-- The character replacement passed to strings.Map inside dirToDBName:
whitespace and hyphens become underscores. -/
def sanitizeRune (c : Char) : Char :=
  if isSpaceGo c ∨ c = '-' then '_' else c

/-- Models strings.ReplaceAll applied with pattern two underscores and
replacement one underscore: non-overlapping occurrences are replaced
left to right. -/
def replaceAllDoubleUnderscore : Str → Str
  | [] => []
  | [c] => [c]
  | c1 :: c2 :: rest =>
    if c1 = '_' ∧ c2 = '_' then '_' :: replaceAllDoubleUnderscore rest
    else c1 :: replaceAllDoubleUnderscore (c2 :: rest)

/-- The replace-until-fixpoint loop of dirToDBName.  The Go loop runs
strings.ReplaceAll until the string stops changing; every productive
iteration strictly shrinks the string, so an iteration budget of
length + 1 always reaches the fixpoint (collapseLoopIter_fix below). -/
def collapseLoopIter : Nat → Str → Str
  | 0, s => s
  | Nat.succ fuel, s =>
    let t := replaceAllDoubleUnderscore s
    if t = s then s else collapseLoopIter fuel t

/-- Models env.dirToDBName: trim whitespace, map whitespace and hyphens
to underscores, then collapse repeated underscores until fixpoint. -/
def dirToDBName (dirName : Str) : Str :=
  collapseLoopIter (((trimSpace dirName).map sanitizeRune).length + 1)
    ((trimSpace dirName).map sanitizeRune)

/-- The sanitization as claim C9 literally words it: every whitespace
character and hyphen is mapped to an underscore (no trimming step), and
runs of underscores are collapsed.  Stated for comparison with the
source function dirToDBName. -/
def dirToDBNameClaimed (dirName : Str) : Str :=
  collapseLoopIter ((dirName.map sanitizeRune).length + 1) (dirName.map sanitizeRune)

/-- Detects an occurrence of two adjacent underscores. -/
def hasDoubleUnderscore : Str → Bool
  | [] => false
  | [_] => false
  | c1 :: c2 :: rest =>
    if c1 = '_' ∧ c2 = '_' then true else hasDoubleUnderscore (c2 :: rest)

/-- Association-list lookup, modelling a Go map read. -/
def lookupA {α : Type} (k : Str) : List (Str × α) → Option α
  | [] => none
  | kv :: rest => if kv.1 = k then some kv.2 else lookupA k rest

/-- Association-list insertion, modelling a Go map assignment: replaces
an existing binding or appends a new one. -/
def insertA {α : Type} (k : Str) (v : α) : List (Str × α) → List (Str × α)
  | [] => [(k, v)]
  | kv :: rest => if kv.1 = k then (k, v) :: rest else kv :: insertA k v rest

/-- Association-list removal, modelling a Go map delete (Go map keys
are unique, so removing every binding of the key is the same thing). -/
def eraseA {α : Type} (k : Str) (m : List (Str × α)) : List (Str × α) :=
  m.filter (fun kv => decide (kv.1 ≠ k))

/-- A loaded dolt environment, reduced to what the multi-environment
manager inspects: its storage-format version string
(DoltDB.Format().VersionString()) and whether the load succeeded
(DoltEnv.Valid()). -/
structure DoltEnv where
  format : Str
  valid : Bool
deriving DecidableEq, Repr

/-- Models the format choice inside env.enforceSingleFormat.  The
formats set is collected from every environment; the retained format
prefers the process default (types.Format_Default.VersionString()) when
any environment uses it, and otherwise is the format of the last
environment in iteration order (the Go source assigns through an
unordered map range; the association list order stands in for the
iteration order). -/
def chosenFormat (fmtDefault : Str) (envSet : List (Str × DoltEnv)) : Str :=
  if (envSet.map (fun kv => kv.2.format)).contains fmtDefault then fmtDefault
  else envSet.foldl (fun _ kv => kv.2.format) []

/-- Continuation of enforceSingleFormat: every environment whose format
differs from the chosen format is deleted. -/
def enforceSingleFormat (fmtDefault : Str) (envSet : List (Str × DoltEnv)) :
    List (Str × DoltEnv) :=
  envSet.filter (fun kv => decide (kv.2.format = chosenFormat fmtDefault envSet))

/-- Lexicographic string comparison by character code: the order used
by sort.Strings in the Go standard library. -/
def lexLe : Str → Str → Bool
  | [], _ => true
  | _ :: _, [] => false
  | a :: as, b :: bs => if a < b then true else if b < a then false else lexLe as bs

/-- Comparison of named environments by name, for the deterministic
ordering of MultiEnvForDirectory. -/
def envNameLe (a b : Str × DoltEnv) : Prop := lexLe a.1 b.1 = true

instance : DecidableRel envNameLe := fun a b =>
  inferInstanceAs (Decidable (lexLe a.1 b.1 = true))

instance : IsTotal (Str × DoltEnv) envNameLe := by
  constructor
  intro a b
  show lexLe a.1 b.1 = true ∨ lexLe b.1 a.1 = true
  generalize a.1 = x
  generalize b.1 = y
  clear a b
  induction x generalizing y with
  | nil => left; rfl
  | cons c cs ih =>
    cases y with
    | nil => right; rfl
    | cons d ds =>
      by_cases h1 : c < d
      · left
        simp [lexLe, h1]
      · by_cases h2 : d < c
        · right
          simp [lexLe, h2]
        · have hcd : c = d := le_antisymm (not_lt.1 h2) (not_lt.1 h1)
          subst hcd
          rcases ih ds with h | h
          · left
            simp [lexLe, h1, h2, h]
          · right
            simp [lexLe, h1, h2, h]

instance : IsTrans (Str × DoltEnv) envNameLe := by
  constructor
  intro a b c hab hbc
  show lexLe a.1 c.1 = true
  revert hab hbc
  show lexLe a.1 b.1 = true → lexLe b.1 c.1 = true → lexLe a.1 c.1 = true
  generalize a.1 = x
  generalize b.1 = y
  generalize c.1 = z
  clear a b c
  induction x generalizing y z with
  | nil =>
    intro _ _
    rfl
  | cons c cs ih =>
    intro hab hbc
    cases y with
    | nil => simp [lexLe] at hab
    | cons d ds =>
      cases z with
      | nil => simp [lexLe] at hbc
      | cons e es =>
        simp only [lexLe] at hab hbc ⊢
        by_cases h1 : c < d
        · by_cases h2 : d < e
          · rw [if_pos (lt_trans h1 h2)]
          · by_cases h3 : e < d
            · simp [if_neg h2, if_pos h3] at hbc
            · have hde : d = e := le_antisymm (not_lt.1 h3) (not_lt.1 h2)
              subst hde
              rw [if_pos h1]
        · by_cases h4 : d < c
          · simp [if_neg h1, if_pos h4] at hab
          · have hcd : c = d := le_antisymm (not_lt.1 h4) (not_lt.1 h1)
            subst hcd
            simp only [if_neg h1, lt_irrefl, if_neg (fun h => lt_irrefl c h)] at hab
            by_cases h2 : c < e
            · rw [if_pos h2]
            · by_cases h3 : e < c
              · simp [if_neg h2, if_pos h3] at hbc
              · have hce : c = e := le_antisymm (not_lt.1 h3) (not_lt.1 h2)
                subst hce
                simp only [if_neg h2, lt_irrefl, if_neg (fun h => lt_irrefl c h)] at hbc ⊢
                exact ih ds es hab hbc

/-- The environment set assembled by MultiEnvForDirectory before
ordering: the current-directory environment under the computed name
dbName when it loaded as valid, then every valid subdirectory
environment keyed by its sanitized directory name, then format
enforcement. -/
def multiEnvSet (fmtDefault dbName : Str) (cwdEnv : DoltEnv)
    (subdirs : List (Str × DoltEnv)) : List (Str × DoltEnv) :=
  let envSet0 : List (Str × DoltEnv) := if cwdEnv.valid then insertA dbName cwdEnv [] else []
  let envSet1 := subdirs.foldl
    (fun acc kv => if kv.2.valid then insertA (dirToDBName kv.1) kv.2 acc else acc) envSet0
  enforceSingleFormat fmtDefault envSet1

/-- Models env.MultiEnvForDirectory, at the level of the environment
list it assembles.  The name computed for the current working directory
(getRepoRootDir of the data directory path followed by dirToDBName, or
the fixed name dolt for the in-memory filesystem) is abstracted as the
dbName argument; subdirs gives, for each immediate subdirectory of the
data directory, the environment that env.Load produced for it.  After
format enforcement, the current-directory environment is appended first
when present and valid, and the rest follow sorted by name. -/
def MultiEnvForDirectory (fmtDefault dbName : Str) (cwdEnv : DoltEnv)
    (subdirs : List (Str × DoltEnv)) : List (Str × DoltEnv) :=
  match lookupA dbName (multiEnvSet fmtDefault dbName cwdEnv subdirs) with
  | some e =>
    if e.valid then
      (dbName, e) ::
        List.insertionSort envNameLe (eraseA dbName (multiEnvSet fmtDefault dbName cwdEnv subdirs))
    else List.insertionSort envNameLe (multiEnvSet fmtDefault dbName cwdEnv subdirs)
  | none => List.insertionSort envNameLe (multiEnvSet fmtDefault dbName cwdEnv subdirs)

/-- Sample environment with format A, used in concrete instances. -/
def envFmtA : DoltEnv := ⟨strL ("A"), true⟩

/-- Sample environment with format B, used in concrete instances. -/
def envFmtB : DoltEnv := ⟨strL ("B"), true⟩

/-- Concrete environment set with formats A, A, B. -/
def envSetAAB : List (Str × DoltEnv) :=
  [(strL ("d1"), envFmtA), (strL ("d2"), envFmtA), (strL ("d3"), envFmtB)]

/-- Concrete environment set with formats B, B, B. -/
def envSetBBB : List (Str × DoltEnv) :=
  [(strL ("d1"), envFmtB), (strL ("d2"), envFmtB), (strL ("d3"), envFmtB)]

/-- Revision types, matching the dsess.RevisionType constants. -/
inductive RevisionType
  | RevisionTypeNone
  | RevisionTypeBranch
  | RevisionTypeTag
  | RevisionTypeCommit
deriving DecidableEq, Repr

/-- Errors surfaced by the provider layer.  Constructors carry the data
the corresponding Go error message interpolates; cloneCleanupFailed
carries the original error it annotates. -/
inductive Err
  | databaseNotFound (name : Str)
  | databaseExists (name : Str)
  | fileExistsAt (name : Str)
  | cannotDropRevisionDb (name : Str)
  | notADirectory (name : Str)
  | noRemoteDialer
  | getRemoteDbFailed (url : Str)
  | cloneCleanupFailed (orig : Err) (dbName : Str)
  | invalidAncestorSpec (spec : Str)
  | refNotFound (name : Str)
  | countMismatch (dbs locs : Nat)
  | oracleErr (tag : Nat)
deriving DecidableEq, Repr

/-- The ref and commit information of a doltdb database handle, as the
provider consults it.  Modelled from the spec: the doltdb package is
not part of the provided sources.  Local branches, remote-tracking
branches and tags are stored as pairs of a case-preserved name and a
head commit hash; commits map a hash to its list of parent hashes. -/
structure DoltDB where
  localBranches : List (Str × Str)
  remoteBranches : List (Str × Str)
  tags : List (Str × Str)
  commits : List (Str × List Str)
deriving DecidableEq, Repr

/-- Case-insensitive ref lookup returning the stored case-sensitive
name, as the spec describes branch matching. -/
def findRefCI (refs : List (Str × Str)) (name : Str) : Option (Str × Str) :=
  refs.find? (fun b => decide (strToLower b.1 = strToLower name))

/-- Modelled from the spec: doltdb.DoltDB.HasBranch matches a local
branch case-insensitively and reports the stored case-sensitive name. -/
def DoltDB.HasBranch (ddb : DoltDB) (name : Str) : Option Str :=
  (findRefCI ddb.localBranches name).map (fun b => b.1)

/-- Modelled from the spec: doltdb.DoltDB.HasRemoteTrackingBranch, the
remote-tracking analogue of HasBranch. -/
def DoltDB.HasRemoteTrackingBranch (ddb : DoltDB) (name : Str) : Option Str :=
  (findRefCI ddb.remoteBranches name).map (fun b => b.1)

/-- Modelled from the spec: doltdb.DoltDB.HasTag checks whether a tag
of the given name exists. -/
def DoltDB.HasTag (ddb : DoltDB) (name : Str) : Bool :=
  ddb.tags.any (fun t => decide (t.1 = name))

/-- Modelled from the spec: doltdb.IsValidCommitHash — a syntactically
valid commit hash is 32 characters of the base32 alphabet 0-9 a-v. -/
def IsValidCommitHash (s : Str) : Bool :=
  decide (s.length = 32) &&
    s.all (fun c => decide (('0' ≤ c ∧ c ≤ '9') ∨ ('a' ≤ c ∧ c ≤ 'v')))

/-- A single trailing ancestor operator of a revision spec: tilde-N or
caret-N, as the spec grammar gives them. -/
inductive AncestorTok
  | tilde (n : Nat)
  | caret (n : Nat)
deriving DecidableEq, Repr

/-- Whether the character starts an ancestor suffix. -/
def isAncestorOp (c : Char) : Bool := decide (c = '~') || decide (c = '^')

/-- Decimal value of a digit string. -/
def natOfDigits (s : Str) : Nat :=
  s.foldl (fun acc c => acc * 10 + (c.toNat - 48)) 0

/-- Modelled from the spec: doltdb.SplitAncestorSpec splits a revision
spec into the base ref name and an optional trailing ancestor operator
(tilde-N, bare tilde or caret meaning one step, caret-N); a malformed
suffix is an InvalidAncestorSpec error. -/
def splitAncestorSpec (revSpec : Str) : Except Err (Str × Option AncestorTok) :=
  match revSpec.dropWhile (fun c => !(isAncestorOp c)) with
  | [] => .ok (revSpec, none)
  | c :: rest =>
    if rest.all (fun d => d.isDigit) then
      if c = '~' then
        .ok (revSpec.takeWhile (fun d => !(isAncestorOp d)),
          some (.tilde (if rest = [] then 1 else natOfDigits rest)))
      else
        .ok (revSpec.takeWhile (fun d => !(isAncestorOp d)),
          some (.caret (if rest = [] then 1 else natOfDigits rest)))
    else .error (.invalidAncestorSpec revSpec)

/-- Modelled from the spec: resolving a ref name case-insensitively to
its head commit hash (doltdb.GetRefByNameInsensitive followed by
ResolveCommitRef), over local branches, then remote-tracking branches,
then tags. -/
def getRefByNameInsensitive (ddb : DoltDB) (name : Str) : Option Str :=
  (findRefCI (ddb.localBranches ++ ddb.remoteBranches ++ ddb.tags) name).map (fun b => b.2)

/-- Modelled from the spec: following the first parent of a commit N
times; walking past a root commit fails with InvalidAncestorSpec. -/
def walkFirstParent (ddb : DoltDB) : Nat → Str → Except Err Str
  | 0, h => .ok h
  | Nat.succ n, h =>
    match lookupA h ddb.commits with
    | none => .error (.refNotFound h)
    | some parents =>
      match parents.head? with
      | none => .error (.invalidAncestorSpec h)
      | some p => walkFirstParent ddb n p

/-- Modelled from the spec: commit.GetAncestor — tilde-N walks the
first-parent chain N steps; caret-N selects the N-th parent (caret-N
with N greater than the parent count, in particular on a non-merge
commit, fails with InvalidAncestorSpec). -/
def getAncestor (ddb : DoltDB) (h : Str) : AncestorTok → Except Err Str
  | .tilde n => walkFirstParent ddb n h
  | .caret 0 => .ok h
  | .caret (Nat.succ k) =>
    match lookupA h ddb.commits with
    | none => .error (.refNotFound h)
    | some parents =>
      match parents.get? k with
      | none => .error (.invalidAncestorSpec h)
      | some p => .ok p

/-- Models resolveAncestorSpec from database_provider.go: a revision
spec without an ancestor operator is returned unchanged; otherwise the
base ref resolves case-insensitively to a commit, the ancestor walk
runs, and the resulting commit hash replaces the spec. -/
def resolveAncestorSpec (ddb : DoltDB) (revSpec : Str) : Except Err Str :=
  match splitAncestorSpec revSpec with
  | .error e => .error e
  | .ok (_, none) => .ok revSpec
  | .ok (refname, some tok) =>
    match getRefByNameInsensitive ddb refname with
    | none => .error (.refNotFound refname)
    | some headHash => getAncestor ddb headHash tok

/-- The concrete Database struct of the sqle package, reduced to the
fields this layer reads: name, doltdb handle, revision string and
revision type. -/
structure Database where
  name : Str
  ddb : DoltDB
  revision : Str
  revType : RevisionType
deriving DecidableEq, Repr

/-- The closed set of dsess.SqlDatabase implementations the provider
handles in its type switches: the plain Database, the ReadOnlyDatabase
wrapper, and the ReadReplicaDatabase wrapper (which additionally holds
the doltdb handle of its remote source). -/
inductive SqlDatabase
  | database (d : Database)
  | readOnly (d : Database)
  | readReplica (d : Database) (srcDB : DoltDB)
deriving DecidableEq, Repr

/-- The embedded Database of any of the three kinds. -/
def SqlDatabase.base : SqlDatabase → Database
  | .database d => d
  | .readOnly d => d
  | .readReplica d _ => d

/-- Models db.Name(). -/
def SqlDatabase.name (db : SqlDatabase) : Str := db.base.name

/-- Models db.DbData().Ddb. -/
def SqlDatabase.dbDataDdb (db : SqlDatabase) : DoltDB := db.base.ddb

/-- Models the revision part that dsess.SplitRevisionDbName reports for
a database (modelled from the spec: dsess is not in the provided
sources; a revision database carries its revision spec, a primary
database carries an empty revision). -/
def SqlDatabase.revisionPart (db : SqlDatabase) : Str := db.base.revision

/-- Models dsess.DbRevisionDelimiter, the delimiter between a database
name and a revision spec (the spec writes names as mydb/branch1). -/
def dbRevisionDelimiter : Char := '/'

/-- Models strings.Contains of the revision delimiter. -/
def containsDelim (s : Str) : Bool := s.any (fun c => decide (c = dbRevisionDelimiter))

/-- Models strings.SplitN with the revision delimiter and limit 2: the
part before the first delimiter and everything after it. -/
def splitOnceDelim : Str → Str × Str
  | [] => ([], [])
  | c :: rest =>
    if c = dbRevisionDelimiter then ([], rest)
    else (c :: (splitOnceDelim rest).1, (splitOnceDelim rest).2)

/-- Models formatDbMapKeyName: the database part of a map key is
case-insensitive and stored lower-cased; the revision part is
case-sensitive and kept as given. -/
def formatDbMapKeyName (name : Str) : Str :=
  if containsDelim name = false then strToLower name
  else strToLower (splitOnceDelim name).1 ++ dbRevisionDelimiter :: (splitOnceDelim name).2

/-- Models doltDbs: the doltdb handles of a database (a read replica
also carries the handle of its remote source). -/
def doltDbs : SqlDatabase → List DoltDB
  | .readReplica d srcDB => [d.ddb, srcDB]
  | .database d => [d.ddb]
  | .readOnly d => [d.ddb]

/-- Models isLocalBranch: the first doltdb handle that knows the
branch, reporting the stored case-sensitive name. -/
def isLocalBranch : List DoltDB → Str → Option Str
  | [], _ => none
  | ddb :: rest, branchName =>
    match ddb.HasBranch branchName with
    | some brName => some brName
    | none => isLocalBranch rest branchName

/-- Models isRemoteBranch: the first doltdb handle that has the name as
a remote-tracking branch. -/
def isRemoteBranch : List DoltDB → Str → Option Str
  | [], _ => none
  | ddb :: rest, branchName =>
    match ddb.HasRemoteTrackingBranch branchName with
    | some brName => some brName
    | none => isRemoteBranch rest branchName

/-- Models isBranch: local branches first, then remote-tracking
branches, over every doltdb handle in scope for the database. -/
def isBranch (db : SqlDatabase) (branchName : Str) : Option Str :=
  match isLocalBranch (doltDbs db) branchName with
  | some brName => some brName
  | none => isRemoteBranch (doltDbs db) branchName

/-- Models isTag: whether any doltdb handle in scope has the tag. -/
def isTag (db : SqlDatabase) (tagName : Str) : Bool :=
  (doltDbs db).any (fun ddb => ddb.HasTag tagName)

/-- Models revisionDbType: resolve any ancestor suffix, then classify
with the precedence branch, tag, commit hash, none; an unmatched spec
is RevisionTypeNone with no error. -/
def revisionDbType (srcDb : SqlDatabase) (revSpec : Str) : Except Err (RevisionType × Str) :=
  match resolveAncestorSpec srcDb.dbDataDdb revSpec with
  | .error e => .error e
  | .ok resolvedRevSpec =>
    match isBranch srcDb resolvedRevSpec with
    | some caseSensitiveBranchName => .ok (.RevisionTypeBranch, caseSensitiveBranchName)
    | none =>
      if isTag srcDb resolvedRevSpec then .ok (.RevisionTypeTag, resolvedRevSpec)
      else if IsValidCommitHash resolvedRevSpec then .ok (.RevisionTypeCommit, resolvedRevSpec)
      else .ok (.RevisionTypeNone, [])

/-- Models revisionDbForBranch: a branch-pinned database named
base/revSpec sharing the doltdb of its source, of the same kind as the
source; the type switch covers Database and ReadReplicaDatabase only,
so any other source kind leaves the result nil. -/
def revisionDbForBranch (srcDb : SqlDatabase) (revSpec : Str) : Option SqlDatabase :=
  match srcDb with
  | .database v =>
    some (.database ⟨v.name ++ dbRevisionDelimiter :: revSpec, v.ddb, revSpec, .RevisionTypeBranch⟩)
  | .readReplica v srcDB =>
    some (.readReplica ⟨v.name ++ dbRevisionDelimiter :: revSpec, v.ddb, revSpec,
      .RevisionTypeBranch⟩ srcDB)
  | .readOnly _ => none

/-- Models revisionDbForTag: a read-only database pinned to a tag. -/
def revisionDbForTag (srcDb : Database) (revSpec : Str) : SqlDatabase :=
  .readOnly ⟨srcDb.name ++ dbRevisionDelimiter :: revSpec, srcDb.ddb, revSpec, .RevisionTypeTag⟩

/-- Models revisionDbForCommit: a read-only database pinned to a
commit hash. -/
def revisionDbForCommit (srcDb : Database) (revSpec : Str) : SqlDatabase :=
  .readOnly ⟨srcDb.name ++ dbRevisionDelimiter :: revSpec, srcDb.ddb, revSpec, .RevisionTypeCommit⟩

/-- Models wrapForStandby: in standby mode a plain Database is wrapped
read-only; a ReadOnlyDatabase is returned as is; any other kind (the
ReadReplicaDatabase) falls through unwrapped. -/
def wrapForStandby (db : SqlDatabase) (standby : Bool) : SqlDatabase :=
  if standby = false then db
  else
    match db with
    | .readOnly d => .readOnly d
    | .database d => .readOnly d
    | .readReplica d srcDB => .readReplica d srcDB

/-- Whether a database value is of the read-only kind (rejects
writes). -/
def isReadOnlyKind : SqlDatabase → Bool
  | .readOnly _ => true
  | _ => false

/-- The filesystem as the provider touches it: which directory paths
and file paths exist.  Paths are the strings the provider passes to
the filesystem (database names relative to the provider root, or
absolute locations). -/
structure Fs where
  dirs : List Str
  files : List Str
deriving DecidableEq, Repr

/-- Models Filesys.Exists: the pair (exists, isDir). -/
def Fs.existsPath (fs : Fs) (p : Str) : Bool × Bool :=
  (fs.dirs.contains p || fs.files.contains p, fs.dirs.contains p)

/-- Directory creation. -/
def Fs.mkDir (fs : Fs) (p : Str) : Fs := ⟨p :: fs.dirs, fs.files⟩

/-- Models Filesys.Delete of a path (recursive). -/
def Fs.deletePath (fs : Fs) (p : Str) : Fs :=
  ⟨fs.dirs.filter (fun q => decide (q ≠ p)), fs.files.filter (fun q => decide (q ≠ p))⟩

/-- Oracle data for everything outside the provider sources: the three
replication-related system variables (an empty string means unset),
the remote network (a partial map from remote URL to the remote
doltdb; absence is a fetch failure), and injected results for the
modelled external calls (none means the call succeeds). -/
structure World where
  readReplicaRemote : Str
  replicationRemoteUrlTemplate : Str
  replicateToRemote : Str
  remote : Str → Option DoltDB
  envForCloneErr : Option Err
  envForCloneWrote : Bool
  cloneRemoteErr : Option Err
  sessionVarErr : Option Err
  newDatabaseErr : Option Err
  prepareErr : Option Err
  addRemoteErr : Option Err
  commitHooksErr : Option Err
  execHooksErr : Option Err
  ensureReplicaHeadErr : Option Err
  closeErr : Option Err
  singletonCacheErr : Option Err
  deleteErr : Option Err
  invalidateErr : Option Err

/-- The DoltDatabaseProvider state: the name-keyed database and
location maps, the standby flag, the default branch, the root path of
the provider filesystem, whether a remote dialer is configured, and
the injectable InitDatabaseHook (either the default replication hook
or an injected result). -/
structure DoltDatabaseProvider where
  databases : List (Str × SqlDatabase)
  dbLocations : List (Str × Str)
  isStandby : Bool
  defaultBranch : Str
  rootPath : Str
  remoteDialerSet : Bool
  initHookIsDefault : Bool
  initHookOracleErr : Option Err
deriving DecidableEq, Repr

/-- Models dsess.URLTemplateDatabasePlaceholder (a dsess constant, not
in the provided sources). -/
def urlTemplatePlaceholder : Str := strL ("{database}")

/-- Models strings.Replace of every database placeholder occurrence in
a remote URL template.  Each step consumes at least one character of
the template, so a fuel of length + 1 suffices. -/
def substDbNameAux (dbName : Str) : Nat → Str → Str
  | 0, s => s
  | Nat.succ fuel, s =>
    match s with
    | [] => []
    | c :: rest =>
      if urlTemplatePlaceholder.isPrefixOf (c :: rest) then
        dbName ++ substDbNameAux dbName fuel ((c :: rest).drop urlTemplatePlaceholder.length)
      else c :: substDbNameAux dbName fuel rest

/-- The remote URL for a database: the template with the placeholder
replaced by the database name, case preserved. -/
def substDbName (template dbName : Str) : Str :=
  substDbNameAux dbName (template.length + 1) template

/-- Outcome of a modelled Go computation: a value, a runtime panic
(a failed single-value type assertion on a nil interface), or
exhaustion of the recursion fuel (never reached with the fuel the
theorems use). -/
inductive Res (α : Type)
  | ok (a : α)
  | panicked
  | outOfFuel
deriving DecidableEq, Repr

/-- Models ConfigureReplicationDatabaseHook: a no-op unless both the
replicate-to-remote name and the URL template system variables are
set; otherwise remote preparation, remote registration (an
already-exists error is tolerated; the oracle holds any other error),
commit-hook construction and the first push run in order, each a
modelled external call with an injected result. -/
def configureReplicationDatabaseHook (w : World) : Option Err :=
  if w.replicateToRemote = [] then none
  else if w.replicationRemoteUrlTemplate = [] then none
  else
    match w.prepareErr with
    | some e => some e
    | none =>
      match w.addRemoteErr with
      | some e => some e
      | none =>
        match w.commitHooksErr with
        | some e => some e
        | none => w.execHooksErr

/-- The InitDatabaseHook invocation: the default hook is
ConfigureReplicationDatabaseHook; an injected hook is modelled by its
oracle result. -/
def runInitHook (w : World) (p : DoltDatabaseProvider) : Option Err :=
  if p.initHookIsDefault then configureReplicationDatabaseHook w else p.initHookOracleErr

/-- Models cloneDatabaseFromRemote (the inner clone): dialer check,
remote database fetch, EnvForClone (which creates the target
directory), CloneRemote, the branch-config update (whose error the
source drops by overwriting err before checking it), the
foreign-key-checks session variable read, database construction, the
InitDatabaseHook, and registration of the new database under its
formatted key.  The result carries the cloned doltdb. -/
def cloneDatabaseFromRemote (w : World) (p : DoltDatabaseProvider) (fs : Fs)
    (dbName remoteName branch remoteUrl : Str) :
    DoltDatabaseProvider × Fs × Except Err DoltDB :=
  if p.remoteDialerSet = false then (p, fs, .error .noRemoteDialer)
  else
    match w.remote remoteUrl with
    | none => (p, fs, .error (.getRemoteDbFailed remoteUrl))
    | some srcDB =>
      match w.envForCloneErr with
      | some e => (p, if w.envForCloneWrote then fs.mkDir dbName else fs, .error e)
      | none =>
        match w.cloneRemoteErr with
        | some e => (p, fs.mkDir dbName, .error e)
        | none =>
          match w.sessionVarErr with
          | some e => (p, fs.mkDir dbName, .error e)
          | none =>
            match w.newDatabaseErr with
            | some e => (p, fs.mkDir dbName, .error e)
            | none =>
              match runInitHook w p with
              | some e => (p, fs.mkDir dbName, .error e)
              | none =>
                ({ p with databases := (insertA (formatDbMapKeyName dbName)
                    (.database ⟨dbName, srcDB, [], .RevisionTypeNone⟩) p.databases) },
                  fs.mkDir dbName, .ok srcDB)

/-- Models CloneDatabaseFromRemote: existence check on the target,
inner clone, best-effort cleanup of the target directory on inner
failure (a cleanup failure annotates, but keeps, the original error),
and the replication hook on success. -/
def CloneDatabaseFromRemote (w : World) (p : DoltDatabaseProvider) (fs : Fs)
    (dbName branch remoteName remoteUrl : Str) :
    DoltDatabaseProvider × Fs × Except Err Unit :=
  if (fs.existsPath dbName).1 && (fs.existsPath dbName).2 then
    (p, fs, .error (.databaseExists dbName))
  else if (fs.existsPath dbName).1 then (p, fs, .error (.fileExistsAt dbName))
  else
    match cloneDatabaseFromRemote w p fs dbName remoteName branch remoteUrl with
    | (p1, fs1, .error e) =>
      if (fs1.existsPath dbName).1 then
        match w.deleteErr with
        | none => (p1, fs1.deletePath dbName, .error e)
        | some _ => (p1, fs1, .error (.cloneCleanupFailed e dbName))
      else (p1, fs1, .error e)
    | (p1, fs1, .ok _) =>
      match configureReplicationDatabaseHook w with
      | some e => (p1, fs1, .error e)
      | none => (p1, fs1, .ok ())

/-- Models attemptCloneReplica: reads the read-replica remote name and
the URL template system variables (an unset value means not a read
replica and a nil error), substitutes the database name into the
template case-preserved, and clones the default branch from that
URL. -/
def attemptCloneReplica (w : World) (p : DoltDatabaseProvider) (fs : Fs) (dbName : Str) :
    DoltDatabaseProvider × Fs × Option Err :=
  if w.readReplicaRemote = [] then (p, fs, none)
  else if w.replicationRemoteUrlTemplate = [] then (p, fs, none)
  else
    match CloneDatabaseFromRemote w p fs dbName p.defaultBranch w.readReplicaRemote
      (substDbName w.replicationRemoteUrlTemplate dbName) with
    | (p1, fs1, .error e) => (p1, fs1, some e)
    | (p1, fs1, .ok _) => (p1, fs1, none)

/-- Models readReplicationActive: both replication system variables
are set. -/
def readReplicationActive (w : World) : Bool :=
  !(decide (w.readReplicaRemote = [])) && !(decide (w.replicationRemoteUrlTemplate = []))

/-- Models databaseForRevision: splits the name at the first revision
delimiter, looks the base up in the registry map, classifies the
revision spec, and synthesizes the revision database.  The Go result
triple (db, ok, err) is kept as is; in particular the branch case
returns ok true with whatever database the type switch produced, which
is nil for a source kind it does not cover. -/
def databaseForRevision (w : World) (p : DoltDatabaseProvider) (revDB : Str) :
    Option SqlDatabase × Bool × Option Err :=
  if containsDelim revDB = false then (none, false, none)
  else
    match lookupA (formatDbMapKeyName (splitOnceDelim revDB).1) p.databases with
    | none => (none, false, none)
    | some srcDb =>
      match revisionDbType srcDb (splitOnceDelim revDB).2 with
      | .error e => (none, false, some e)
      | .ok (.RevisionTypeBranch, resolvedRevSpec) =>
        match srcDb with
        | .readReplica d srcDB =>
          match w.ensureReplicaHeadErr with
          | some e => (none, false, some e)
          | none => (revisionDbForBranch (.readReplica d srcDB) resolvedRevSpec, true, none)
        | _ => (revisionDbForBranch srcDb resolvedRevSpec, true, none)
      | .ok (.RevisionTypeTag, resolvedRevSpec) =>
        match srcDb with
        | .readReplica d _ => (some (revisionDbForTag d resolvedRevSpec), true, none)
        | .database d => (some (revisionDbForTag d resolvedRevSpec), true, none)
        | .readOnly _ => (none, false, none)
      | .ok (.RevisionTypeCommit, _) =>
        match srcDb with
        | .readReplica d _ => (some (revisionDbForCommit d (splitOnceDelim revDB).2), true, none)
        | .database d => (some (revisionDbForCommit d (splitOnceDelim revDB).2), true, none)
        | .readOnly _ => (none, false, none)
      | .ok (.RevisionTypeNone, _) => (none, false, none)

/-- The Database method body, parameterized over the SessionDatabase
call it makes: an error passes through, a missing database becomes a
database-not-found error. -/
def DatabaseLookupOf
    (sdb : DoltDatabaseProvider → Fs → Str →
      DoltDatabaseProvider × Fs × Res (Option SqlDatabase × Bool × Option Err))
    (p : DoltDatabaseProvider) (fs : Fs) (name : Str) :
    DoltDatabaseProvider × Fs × Res (Option SqlDatabase × Option Err) :=
  match sdb p fs name with
  | (p1, fs1, .panicked) => (p1, fs1, .panicked)
  | (p1, fs1, .outOfFuel) => (p1, fs1, .outOfFuel)
  | (p1, fs1, .ok (_, _, some e)) => (p1, fs1, .ok (none, some e))
  | (p1, fs1, .ok (dbOpt, found, none)) =>
    if found then (p1, fs1, .ok (dbOpt, none))
    else (p1, fs1, .ok (none, some (.databaseNotFound name)))

/-- The databaseForClone body, parameterized over the SessionDatabase
call of its retried lookup.  A clone failure is logged and yields
(nil, nil); after a successful clone the retried Database result is
returned through a single-value type assertion, which panics when that
result is a nil database (an error case). -/
def databaseForCloneOf
    (sdb : DoltDatabaseProvider → Fs → Str →
      DoltDatabaseProvider × Fs × Res (Option SqlDatabase × Bool × Option Err))
    (w : World) (p : DoltDatabaseProvider) (fs : Fs) (revDB : Str) :
    DoltDatabaseProvider × Fs × Res (Option SqlDatabase × Option Err) :=
  if readReplicationActive w = false then (p, fs, .ok (none, none))
  else
    match attemptCloneReplica w p fs
      (if containsDelim revDB then (splitOnceDelim revDB).1 else revDB) with
    | (p1, fs1, some _) => (p1, fs1, .ok (none, none))
    | (p1, fs1, none) =>
      match DatabaseLookupOf sdb p1 fs1 revDB with
      | (p2, fs2, .panicked) => (p2, fs2, .panicked)
      | (p2, fs2, .outOfFuel) => (p2, fs2, .outOfFuel)
      | (p2, fs2, .ok (some db, errOpt)) => (p2, fs2, .ok (some db, errOpt))
      | (p2, fs2, .ok (none, _)) => (p2, fs2, .panicked)

/-- Models SessionDatabase: an exact (case-folded) registry map hit is
returned at once, wrapped for standby; otherwise the name resolves as
a revision database (never cached); otherwise, under read replication,
an on-demand clone of the base name runs and the lookup is retried
once.  The fuel bounds the clone-retry recursion. -/
def SessionDatabase : Nat → World → DoltDatabaseProvider → Fs → Str →
    DoltDatabaseProvider × Fs × Res (Option SqlDatabase × Bool × Option Err)
  | 0, _, p, fs, _ => (p, fs, .outOfFuel)
  | Nat.succ fuel, w, p, fs, name =>
    match lookupA (formatDbMapKeyName name) p.databases with
    | some db => (p, fs, .ok (some (wrapForStandby db p.isStandby), true, none))
    | none =>
      match databaseForRevision w p name with
      | (_, _, some e) => (p, fs, .ok (none, false, some e))
      | (dbOpt, true, none) =>
        (p, fs, .ok (dbOpt.map (fun d => wrapForStandby d p.isStandby), true, none))
      | (_, false, none) =>
        match databaseForCloneOf (SessionDatabase fuel w) w p fs name with
        | (p1, fs1, .panicked) => (p1, fs1, .panicked)
        | (p1, fs1, .outOfFuel) => (p1, fs1, .outOfFuel)
        | (p1, fs1, .ok (_, some e)) => (p1, fs1, .ok (none, false, some e))
        | (p1, fs1, .ok (none, none)) => (p1, fs1, .ok (none, false, none))
        | (p1, fs1, .ok (some db, none)) =>
          (p1, fs1, .ok (some (wrapForStandby db p.isStandby), true, none))

/-- Models the Database method of the provider, with the given fuel. -/
def DatabaseLookup (fuel : Nat) (w : World) (p : DoltDatabaseProvider) (fs : Fs)
    (name : Str) : DoltDatabaseProvider × Fs × Res (Option SqlDatabase × Option Err) :=
  DatabaseLookupOf (SessionDatabase fuel w) p fs name

/-- Models databaseForClone, with the given fuel for the retried
lookup. -/
def databaseForClone (fuel : Nat) (w : World) (p : DoltDatabaseProvider) (fs : Fs)
    (revDB : Str) : DoltDatabaseProvider × Fs × Res (Option SqlDatabase × Option Err) :=
  databaseForCloneOf (SessionDatabase fuel w) w p fs revDB

/-- Models isRevisionDatabase: resolves the name through
SessionDatabase and reports whether the resolved database carries a
revision part; an unresolvable name is a database-not-found error. -/
def isRevisionDatabase (fuel : Nat) (w : World) (p : DoltDatabaseProvider) (fs : Fs)
    (dbName : Str) : DoltDatabaseProvider × Fs × Res (Except Err Bool) :=
  match SessionDatabase fuel w p fs dbName with
  | (p1, fs1, .panicked) => (p1, fs1, .panicked)
  | (p1, fs1, .outOfFuel) => (p1, fs1, .outOfFuel)
  | (p1, fs1, .ok (_, _, some e)) => (p1, fs1, .ok (.error e))
  | (p1, fs1, .ok (dbOpt, found, none)) =>
    if found = false then (p1, fs1, .ok (.error (.databaseNotFound dbName)))
    else
      match dbOpt with
      | none => (p1, fs1, .panicked)
      | some db => (p1, fs1, .ok (.ok (!(decide (db.revisionPart = [])))))

/-- The hidden dolt metadata directory name (dbfactory.DoltDir). -/
def doltDirName : Str := strL (".dolt")

/-- Models strings.HasPrefix. -/
def strStartsWith (pre s : Str) : Bool := pre.isPrefixOf s

/-- The derivative-purge and map-removal tail of DropDatabase, after
the directory to delete has been determined: delete it from disk, drop
every map key whose lower-cased form starts with the dropped key plus
the revision delimiter, drop the primary key, then invalidate the db
state in every session. -/
def dropFinish (w : World) (p : DoltDatabaseProvider) (fs : Fs) (name dirToDelete : Str) :
    DoltDatabaseProvider × Fs × Res (Option Err) :=
  match w.deleteErr with
  | some e => (p, fs, .ok (some e))
  | none =>
    ({ p with databases := (eraseA (formatDbMapKeyName name)
        (p.databases.filter (fun kv =>
          !(strStartsWith (strToLower (formatDbMapKeyName name ++ [dbRevisionDelimiter]))
            (strToLower kv.1))))) },
      fs.deletePath dirToDelete,
      .ok w.invalidateErr)

/-- The directory-selection step of DropDatabase: a database rooted at
the provider root deletes only the hidden dolt directory; a nested
database deletes its own directory; a missing directory is a
database-not-found error carrying the display name db.Name(). -/
def dropDeleteAndPurge (w : World) (p : DoltDatabaseProvider) (fs : Fs)
    (name dbDisplayName dbLoc : Str) : DoltDatabaseProvider × Fs × Res (Option Err) :=
  if p.rootPath = dbLoc then
    if (fs.existsPath doltDirName).1 = false then
      (p, fs, .ok (some (.databaseNotFound dbDisplayName)))
    else dropFinish w p fs name doltDirName
  else
    if (fs.existsPath dbLoc).1 = false then
      (p, fs, .ok (some (.databaseNotFound dbDisplayName)))
    else if (fs.existsPath dbLoc).2 = false then
      (p, fs, .ok (some (.notADirectory (formatDbMapKeyName name))))
    else dropFinish w p fs name dbLoc

/-- Models DropDatabase: refuse revision databases; re-read the map
entry (a single-value type assertion to the concrete Database struct,
which panics on any other kind); close the content store; find the
database location under the formatted key; evict the content-store
singleton cache; then delete the directory and purge the registry. -/
def DropDatabase (fuel : Nat) (w : World) (p : DoltDatabaseProvider) (fs : Fs) (name : Str) :
    DoltDatabaseProvider × Fs × Res (Option Err) :=
  match isRevisionDatabase fuel w p fs name with
  | (p1, fs1, .panicked) => (p1, fs1, .panicked)
  | (p1, fs1, .outOfFuel) => (p1, fs1, .outOfFuel)
  | (p1, fs1, .ok (.error e)) => (p1, fs1, .ok (some e))
  | (p1, fs1, .ok (.ok true)) => (p1, fs1, .ok (some (.cannotDropRevisionDb name)))
  | (p1, fs1, .ok (.ok false)) =>
    match lookupA (formatDbMapKeyName name) p1.databases with
    | none => (p1, fs1, .panicked)
    | some db =>
      match db with
      | .database d =>
        match w.closeErr with
        | some e => (p1, fs1, .ok (some e))
        | none =>
          match lookupA (formatDbMapKeyName name) p1.dbLocations with
          | none => (p1, fs1, .ok (some (.databaseNotFound (SqlDatabase.database d).name)))
          | some dbLoc =>
            match w.singletonCacheErr with
            | some e => (p1, fs1, .ok (some e))
            | none => dropDeleteAndPurge w p1 fs1 name (SqlDatabase.database d).name dbLoc
      | _ => (p1, fs1, .panicked)

/-- Models SetIsStandby: flips the shared standby flag; the registry
maps are untouched. -/
def SetIsStandby (p : DoltDatabaseProvider) (standby : Bool) : DoltDatabaseProvider :=
  { p with isStandby := standby }

/-- Models FileSystemForDatabase: a direct lookup of the requested name
in the location map (no case folding), database-not-found otherwise. -/
def FileSystemForDatabase (p : DoltDatabaseProvider) (dbname : Str) : Except Err Str :=
  match lookupA dbname p.dbLocations with
  | none => .error (.databaseNotFound dbname)
  | some dbLocation => .ok dbLocation

/-- Models NewDoltDatabaseProviderWithDatabases: requires as many
locations as databases; keys the database map by the lower-cased
database name but the location map by the original-case name. -/
def NewDoltDatabaseProviderWithDatabases (defaultBranch rootPath : Str)
    (databases : List SqlDatabase) (locations : List Str) :
    Except Err DoltDatabaseProvider :=
  if !(decide (databases.length = locations.length)) then
    .error (.countMismatch databases.length locations.length)
  else .ok
    { databases := databases.foldl (fun m db => insertA (strToLower db.name) db m) []
      dbLocations :=
        (databases.zip locations).foldl (fun m dbLoc => insertA dbLoc.1.name dbLoc.2 m) []
      isStandby := false
      defaultBranch := defaultBranch
      rootPath := rootPath
      remoteDialerSet := false
      initHookIsDefault := true
      initHookOracleErr := none }

/-- A commit hash of 32 zero digits, used in concrete instances. -/
def hash0 : Str := strL ("00000000000000000000000000000000")

/-- A doltdb with one local branch main at a root commit, used in
concrete instances. -/
def mainOnlyDdb : DoltDB :=
  ⟨[(strL ("main"), hash0)], [], [], [(hash0, [])]⟩

/-- A primary database named db1 over mainOnlyDdb. -/
def db1Sample : Database := ⟨strL ("db1"), mainOnlyDdb, [], .RevisionTypeNone⟩

/-- A world with no replication configured, an empty remote, and every
modelled external call succeeding. -/
def plainWorld : World :=
  { readReplicaRemote := []
    replicationRemoteUrlTemplate := []
    replicateToRemote := []
    remote := fun _ => none
    envForCloneErr := none
    envForCloneWrote := false
    cloneRemoteErr := none
    sessionVarErr := none
    newDatabaseErr := none
    prepareErr := none
    addRemoteErr := none
    commitHooksErr := none
    execHooksErr := none
    ensureReplicaHeadErr := none
    closeErr := none
    singletonCacheErr := none
    deleteErr := none
    invalidateErr := none }

/-- A world with read replication configured (remote name origin, a
URL template over the database placeholder) whose remote serves the
database base. -/
def cloneWorld : World :=
  { plainWorld with
    readReplicaRemote := strL ("origin")
    replicationRemoteUrlTemplate := strL ("http://{database}")
    remote := fun url => if url = strL ("http://base") then some mainOnlyDdb else none }

/-- A world like cloneWorld whose remote serves only the lower-case
database name ab. -/
def cloneWorldLower : World :=
  { cloneWorld with
    remote := fun url => if url = strL ("http://ab") then some mainOnlyDdb else none }

/-- The empty filesystem. -/
def emptyFs : Fs := ⟨[], []⟩

/-- A provider with no databases and a remote dialer configured. -/
def emptyProviderDialer : DoltDatabaseProvider :=
  { databases := []
    dbLocations := []
    isStandby := false
    defaultBranch := strL ("main")
    rootPath := strL ("/data")
    remoteDialerSet := true
    initHookIsDefault := true
    initHookOracleErr := none }

/-- A read-replica database named r, used in the standby instance. -/
def replicaSample : SqlDatabase :=
  .readReplica ⟨strL ("r"), mainOnlyDdb, [], .RevisionTypeNone⟩ mainOnlyDdb

/-- A standby provider whose registry holds the read replica r. -/
def standbyProvider : DoltDatabaseProvider :=
  { emptyProviderDialer with
    databases := [(strL ("r"), replicaSample)]
    isStandby := true }

/-- The provider of the drop instance: primary db1 with a stored
derivative db1/b1, located at /data/db1 under root /data. -/
def dropProvider : DoltDatabaseProvider :=
  { emptyProviderDialer with
    databases :=
      [(strL ("db1"), SqlDatabase.database db1Sample),
       (strL ("db1/b1"),
        SqlDatabase.database ⟨strL ("db1/b1"), mainOnlyDdb, strL ("b1"), .RevisionTypeBranch⟩)]
    dbLocations := [(strL ("db1"), strL ("/data/db1"))]
    remoteDialerSet := false }

/-- The filesystem of the drop instance. -/
def dropFs : Fs := ⟨[strL ("/data/db1")], []⟩

/-- The database of the constructor-mismatch instance: an upper-case
name. -/
def c10db : Database := ⟨strL ("MyDB"), mainOnlyDdb, [], .RevisionTypeNone⟩

/-- The provider the constructor builds for c10db: the database map
keyed lower-cased, the location map keyed original-case. -/
def c10provider : DoltDatabaseProvider :=
  { databases := [(strL ("mydb"), SqlDatabase.database c10db)]
    dbLocations := [(strL ("MyDB"), strL ("/data/MyDB"))]
    isStandby := false
    defaultBranch := strL ("main")
    rootPath := strL ("/data")
    remoteDialerSet := false
    initHookIsDefault := true
    initHookOracleErr := none }

theorem char_toNat_ofNat (n : Nat) (h : n.isValidChar) : (Char.ofNat n).toNat = n := by
  unfold Char.ofNat
  rw [dif_pos h]
  rfl

theorem charLower_charLower (c : Char) : charLower (charLower c) = charLower c := by
  unfold charLower Char.toLower
  by_cases h : c.toNat ≥ 65 ∧ c.toNat ≤ 90
  · have hv : (c.toNat + 32).isValidChar := by
      constructor
      omega
    rw [if_pos h, char_toNat_ofNat _ hv, if_neg (by omega)]
  · rw [if_neg h, if_neg h]

theorem charLower_charUpper (c : Char) : charLower (charUpper c) = charLower c := by
  unfold charLower charUpper Char.toLower Char.toUpper
  by_cases h : c.toNat ≥ 97 ∧ c.toNat ≤ 122
  · have hv : (c.toNat - 32).isValidChar := by
      constructor
      omega
    rw [if_pos h]
    rw [char_toNat_ofNat _ hv]
    rw [if_pos (show c.toNat - 32 ≥ 65 ∧ c.toNat - 32 ≤ 90 by omega)]
    rw [if_neg (show ¬(c.toNat ≥ 65 ∧ c.toNat ≤ 90) by omega)]
    rw [show c.toNat - 32 + 32 = c.toNat by omega]
    exact Char.ofNat_toNat c
  · rw [if_neg h]

theorem strToLower_strToLower (s : Str) : strToLower (strToLower s) = strToLower s := by
  unfold strToLower
  rw [List.map_map]
  apply List.map_congr_left
  intro c _
  exact charLower_charLower c

theorem strToLower_strToUpper (s : Str) : strToLower (strToUpper s) = strToLower s := by
  unfold strToLower strToUpper
  rw [List.map_map]
  apply List.map_congr_left
  intro c _
  exact charLower_charUpper c

theorem replaceAll_du_length_le (s : Str) :
    (replaceAllDoubleUnderscore s).length ≤ s.length := by
  induction s using replaceAllDoubleUnderscore.induct with
  | case1 => simp [replaceAllDoubleUnderscore]
  | case2 c => simp [replaceAllDoubleUnderscore]
  | case3 c1 c2 rest h ih =>
    simp only [replaceAllDoubleUnderscore, if_pos h, List.length_cons]
    omega
  | case4 c1 c2 rest h ih =>
    simp only [replaceAllDoubleUnderscore, if_neg h, List.length_cons]
    simp only [List.length_cons] at ih
    omega

theorem replaceAll_du_eq_or_lt (s : Str) :
    replaceAllDoubleUnderscore s = s ∨ (replaceAllDoubleUnderscore s).length < s.length := by
  induction s using replaceAllDoubleUnderscore.induct with
  | case1 => left; rfl
  | case2 c => left; rfl
  | case3 c1 c2 rest h ih =>
    right
    have := replaceAll_du_length_le rest
    simp only [replaceAllDoubleUnderscore, if_pos h, List.length_cons]
    omega
  | case4 c1 c2 rest h ih =>
    rcases ih with h1 | h1
    · left
      simp only [replaceAllDoubleUnderscore, if_neg h, h1]
    · right
      simp only [replaceAllDoubleUnderscore, if_neg h, List.length_cons]
      simp only [List.length_cons] at h1
      omega

theorem mem_replaceAll_du (s : Str) (c : Char) (h : c ∈ replaceAllDoubleUnderscore s) : c ∈ s := by
  induction s using replaceAllDoubleUnderscore.induct with
  | case1 =>
    simp [replaceAllDoubleUnderscore] at h
  | case2 d => simpa [replaceAllDoubleUnderscore] using h
  | case3 c1 c2 rest hc ih =>
    simp only [replaceAllDoubleUnderscore, if_pos hc] at h
    rcases List.mem_cons.1 h with h1 | h1
    · simp [h1, hc.1]
    · simp [ih h1]
  | case4 c1 c2 rest hc ih =>
    simp only [replaceAllDoubleUnderscore, if_neg hc] at h
    rcases List.mem_cons.1 h with h1 | h1
    · simp [h1]
    · have := ih h1
      simp only [List.mem_cons] at this ⊢
      tauto

theorem collapseLoopIter_fix (fuel : Nat) (s : Str) (h : s.length < fuel) :
    replaceAllDoubleUnderscore (collapseLoopIter fuel s) = collapseLoopIter fuel s := by
  induction fuel generalizing s with
  | zero => omega
  | succ fuel ih =>
    simp only [collapseLoopIter]
    by_cases he : replaceAllDoubleUnderscore s = s
    · simp only [if_pos he]
      exact he
    · simp only [if_neg he]
      apply ih
      rcases replaceAll_du_eq_or_lt s with h1 | h1
      · exact absurd h1 he
      · omega

theorem mem_collapseLoopIter (fuel : Nat) (s : Str) (c : Char)
    (h : c ∈ collapseLoopIter fuel s) : c ∈ s := by
  induction fuel generalizing s with
  | zero =>
    simpa only [collapseLoopIter] using h
  | succ fuel ih =>
    simp only [collapseLoopIter] at h
    by_cases he : replaceAllDoubleUnderscore s = s
    · simpa only [if_pos he] using h
    · simp only [if_neg he] at h
      exact mem_replaceAll_du s c (ih _ h)

theorem sanitizeRune_not_space_not_hyphen (c : Char) :
    isSpaceGo (sanitizeRune c) = false ∧ sanitizeRune c ≠ '-' := by
  unfold sanitizeRune
  by_cases h : isSpaceGo c ∨ c = '-'
  · rw [if_pos h]
    exact ⟨by decide, by decide⟩
  · rw [if_neg h]
    push_neg at h
    refine ⟨?_, h.2⟩
    simpa using h.1

theorem dropWhile_eq_self_of_not (p : Char → Bool) (s : Str)
    (h : ∀ c ∈ s, p c = false) : s.dropWhile p = s := by
  cases s with
  | nil => rfl
  | cons c rest =>
    rw [List.dropWhile_cons]
    rw [h c (by simp)]
    simp

theorem trimSpace_eq_self (s : Str) (h : ∀ c ∈ s, isSpaceGo c = false) :
    trimSpace s = s := by
  unfold trimSpace
  rw [dropWhile_eq_self_of_not _ s h]
  rw [dropWhile_eq_self_of_not _ s.reverse (by
    intro c hc
    exact h c (List.mem_reverse.1 hc))]
  exact List.reverse_reverse s

theorem map_sanitize_eq_self (s : Str)
    (h : ∀ c ∈ s, isSpaceGo c = false ∧ c ≠ '-') : s.map sanitizeRune = s := by
  induction s with
  | nil => rfl
  | cons c rest ih =>
    have hc := h c (List.mem_cons_self c rest)
    have hr : rest.map sanitizeRune = rest := ih (fun d hd => h d (List.mem_cons_of_mem c hd))
    simp only [List.map_cons, hr]
    have : sanitizeRune c = c := by
      unfold sanitizeRune
      rw [if_neg (by simp [hc.1, hc.2])]
    rw [this]

theorem hasDoubleUnderscore_lt (s : Str) (h : hasDoubleUnderscore s = true) :
    (replaceAllDoubleUnderscore s).length < s.length := by
  induction s using replaceAllDoubleUnderscore.induct with
  | case1 => simp [hasDoubleUnderscore] at h
  | case2 c => simp [hasDoubleUnderscore] at h
  | case3 c1 c2 rest hc ih =>
    have := replaceAll_du_length_le rest
    simp only [replaceAllDoubleUnderscore, if_pos hc, List.length_cons]
    omega
  | case4 c1 c2 rest hc ih =>
    simp only [hasDoubleUnderscore, if_neg hc] at h
    have := ih h
    simp only [replaceAllDoubleUnderscore, if_neg hc, List.length_cons]
    simp only [List.length_cons] at this
    omega

theorem hasDoubleUnderscore_of_fix (s : Str)
    (h : replaceAllDoubleUnderscore s = s) : hasDoubleUnderscore s = false := by
  by_contra hc
  have h1 : hasDoubleUnderscore s = true := by
    revert hc
    cases hasDoubleUnderscore s <;> simp
  have := hasDoubleUnderscore_lt s h1
  rw [h] at this
  omega

theorem mem_dirToDBName (x : Str) (c : Char) (h : c ∈ dirToDBName x) :
    isSpaceGo c = false ∧ c ≠ '-' := by
  unfold dirToDBName at h
  have h1 := mem_collapseLoopIter _ _ _ h
  rcases List.mem_map.1 h1 with ⟨d, _, hd⟩
  rw [← hd]
  exact sanitizeRune_not_space_not_hyphen d

/-- Claim C9 counterexample: dirToDBName does not map every whitespace
character to an underscore — leading and trailing whitespace is trimmed
away instead.  On the directory name consisting of a space followed by
the letter a, the source function returns a single letter, while the
behavior worded by the claim (map whitespace to underscore, then
collapse) returns underscore-a. -/
theorem dirToDBName_claim_counterexample :
    dirToDBName (strL (" a")) ≠ dirToDBNameClaimed (strL (" a")) ∧
    dirToDBName (strL (" a")) = strL ("a") ∧
    dirToDBNameClaimed (strL (" a")) = strL ("_a") := by
  refine ⟨by decide, by decide, by decide⟩

/-- Claim C9 (amended): after trimming leading and trailing whitespace,
dirToDBName maps every remaining whitespace character and hyphen to an
underscore and collapses runs of underscores (its output never contains
whitespace, a hyphen, or two adjacent underscores), and it is
idempotent: dirToDBName (dirToDBName x) = dirToDBName x. -/
theorem dirToDBName_sanitization :
    (∀ x : Str, dirToDBName x = dirToDBNameClaimed (trimSpace x)) ∧
    (∀ x : Str, ∀ c ∈ dirToDBName x, isSpaceGo c = false ∧ c ≠ '-') ∧
    (∀ x : Str, hasDoubleUnderscore (dirToDBName x) = false) ∧
    (∀ x : Str, dirToDBName (dirToDBName x) = dirToDBName x) := by
  refine ⟨fun x => rfl, mem_dirToDBName, ?_, ?_⟩
  · intro x
    unfold dirToDBName
    apply hasDoubleUnderscore_of_fix
    exact collapseLoopIter_fix _ _ (by omega)
  · intro x
    have hmem := mem_dirToDBName x
    have htrim : trimSpace (dirToDBName x) = dirToDBName x :=
      trimSpace_eq_self _ (fun c hc => (hmem c hc).1)
    have hmap : (dirToDBName x).map sanitizeRune = dirToDBName x :=
      map_sanitize_eq_self _ hmem
    have hfix : replaceAllDoubleUnderscore (dirToDBName x) = dirToDBName x := by
      unfold dirToDBName
      exact collapseLoopIter_fix _ _ (by omega)
    show collapseLoopIter (((trimSpace (dirToDBName x)).map sanitizeRune).length + 1)
      ((trimSpace (dirToDBName x)).map sanitizeRune) = dirToDBName x
    rw [htrim, hmap]
    simp only [collapseLoopIter]
    rw [if_pos hfix]

/-- Claim C9 witness: the amended sanitization theorem applied at the
concrete directory name space-a-hyphen-hyphen-b-space-c-space. -/
theorem dirToDBName_sanitization_witness :
    ('a' ∈ dirToDBName (strL (" a--b c ")) → isSpaceGo 'a' = false ∧ 'a' ≠ '-') ∧
    dirToDBName (dirToDBName (strL (" a--b c "))) = dirToDBName (strL (" a--b c ")) ∧
    dirToDBName (strL (" a--b c ")) = strL ("a_b_c") := by
  refine ⟨fun h => dirToDBName_sanitization.2.1 (strL (" a--b c ")) 'a' h,
    dirToDBName_sanitization.2.2.2 (strL (" a--b c ")), by decide⟩

theorem foldl_pick_mem (s : List (Str × DoltEnv)) (i : Str) (h : s ≠ []) :
    ∃ kv ∈ s, s.foldl (fun _ kv => kv.2.format) i = kv.2.format := by
  induction s generalizing i with
  | nil => exact absurd rfl h
  | cons kv rest ih =>
    cases hr : rest with
    | nil =>
      refine ⟨kv, by simp, ?_⟩
      simp [List.foldl]
    | cons kv2 rest2 =>
      rw [← hr]
      have hne : rest ≠ [] := by simp [hr]
      rcases ih kv.2.format hne with ⟨kv3, hm, he⟩
      exact ⟨kv3, List.mem_cons_of_mem kv hm, by simpa [List.foldl] using he⟩

/-- Claim C7: enforceSingleFormat leaves a format-homogeneous set.  If
any environment uses the process default format, exactly the
environments of the default format remain; otherwise one format among
those present is chosen and exactly its environments remain.  On the
concrete sets: formats A, A, B with default A keep exactly the two
A-format environments, and formats B, B, B with default A keep all
three. -/
theorem enforceSingleFormat_homogeneous (fd : Str) (s : List (Str × DoltEnv)) :
    ((∃ kv ∈ s, kv.2.format = fd) →
      enforceSingleFormat fd s = s.filter (fun kv => decide (kv.2.format = fd))) ∧
    ((¬ ∃ kv ∈ s, kv.2.format = fd) → s ≠ [] →
      ∃ f, (∃ kv ∈ s, kv.2.format = f) ∧
        enforceSingleFormat fd s = s.filter (fun kv => decide (kv.2.format = f))) ∧
    (∀ kv1 ∈ enforceSingleFormat fd s, ∀ kv2 ∈ enforceSingleFormat fd s,
      kv1.2.format = kv2.2.format) ∧
    enforceSingleFormat (strL ("A")) envSetAAB = [(strL ("d1"), envFmtA), (strL ("d2"), envFmtA)] ∧
    enforceSingleFormat (strL ("A")) envSetBBB = envSetBBB := by
  have hmem : (∃ kv ∈ s, kv.2.format = fd) ↔
      (s.map (fun kv => kv.2.format)).contains fd = true := by
    rw [show ((s.map (fun kv => kv.2.format)).contains fd) =
      (s.map (fun kv => kv.2.format)).elem fd from rfl]
    rw [List.elem_iff]
    simp only [List.mem_map]
  refine ⟨?_, ?_, ?_, by decide, by decide⟩
  · intro h
    unfold enforceSingleFormat
    rw [show chosenFormat fd s = fd from by unfold chosenFormat; rw [if_pos (hmem.1 h)]]
  · intro h hne
    have hc : ¬ ((s.map (fun kv => kv.2.format)).contains fd = true) := fun hx => h (hmem.2 hx)
    rcases foldl_pick_mem s [] hne with ⟨kv, hm, he⟩
    refine ⟨kv.2.format, ⟨kv, hm, rfl⟩, ?_⟩
    unfold enforceSingleFormat
    rw [show chosenFormat fd s = kv.2.format from by
      unfold chosenFormat; rw [if_neg hc]; exact he]
  · intro kv1 h1 kv2 h2
    unfold enforceSingleFormat at h1 h2
    have e1 := List.of_mem_filter h1
    have e2 := List.of_mem_filter h2
    simp only [decide_eq_true_eq] at e1 e2
    rw [e1, e2]

/-- Claim C7 witness: the homogeneity theorem applied at the concrete
environment set with formats A, A, B and default format A. -/
theorem enforceSingleFormat_homogeneous_witness :
    enforceSingleFormat (strL ("A")) envSetAAB =
      envSetAAB.filter (fun kv => decide (kv.2.format = strL ("A"))) :=
  (enforceSingleFormat_homogeneous (strL ("A")) envSetAAB).1 (by decide)

/-- Claim C8: after format enforcement, when the current-directory
environment is present under its computed name and valid, the resulting
environment list puts it first, and the remaining environments are
exactly the rest of the set, sorted in case-sensitive lexicographic
order of their database names. -/
theorem multiEnvForDirectory_ordering (fd dbName : Str) (cwdEnv e : DoltEnv)
    (subdirs : List (Str × DoltEnv))
    (hfound : lookupA dbName (multiEnvSet fd dbName cwdEnv subdirs) = some e)
    (hvalid : e.valid = true) :
    MultiEnvForDirectory fd dbName cwdEnv subdirs =
      (dbName, e) ::
        List.insertionSort envNameLe (eraseA dbName (multiEnvSet fd dbName cwdEnv subdirs)) ∧
    (MultiEnvForDirectory fd dbName cwdEnv subdirs).head? = some (dbName, e) ∧
    List.Sorted envNameLe (MultiEnvForDirectory fd dbName cwdEnv subdirs).tail ∧
    (MultiEnvForDirectory fd dbName cwdEnv subdirs).tail.Perm
      (eraseA dbName (multiEnvSet fd dbName cwdEnv subdirs)) := by
  have heq : MultiEnvForDirectory fd dbName cwdEnv subdirs =
      (dbName, e) ::
        List.insertionSort envNameLe (eraseA dbName (multiEnvSet fd dbName cwdEnv subdirs)) := by
    unfold MultiEnvForDirectory
    rw [hfound]
    simp only [hvalid, if_true]
  refine ⟨heq, by rw [heq]; rfl, ?_, ?_⟩
  · rw [heq]
    exact List.sorted_insertionSort envNameLe _
  · rw [heq]
    exact List.perm_insertionSort envNameLe _

/-- Claim C8 witness: the ordering theorem applied to a current
directory named cw with two valid subdirectories d2 and d1, all with
the default format. -/
theorem multiEnvForDirectory_ordering_witness :
    MultiEnvForDirectory (strL ("A")) (strL ("cw")) envFmtA
        [(strL ("d2"), envFmtA), (strL ("d1"), envFmtA)] =
      (strL ("cw"), envFmtA) ::
        List.insertionSort envNameLe (eraseA (strL ("cw"))
          (multiEnvSet (strL ("A")) (strL ("cw")) envFmtA
            [(strL ("d2"), envFmtA), (strL ("d1"), envFmtA)])) :=
  (multiEnvForDirectory_ordering (strL ("A")) (strL ("cw")) envFmtA envFmtA
    [(strL ("d2"), envFmtA), (strL ("d1"), envFmtA)] (by decide) (by decide)).1

theorem formatDbMapKeyName_nodelim (s : Str) (h : containsDelim s = false) :
    formatDbMapKeyName s = strToLower s := by
  unfold formatDbMapKeyName
  rw [if_pos h]

theorem wrapForStandby_false (db : SqlDatabase) : wrapForStandby db false = db := by
  unfold wrapForStandby
  rw [if_pos rfl]

theorem sessionDatabase_map_hit (fuel : Nat) (w : World) (p : DoltDatabaseProvider)
    (fs : Fs) (name : Str) (db : SqlDatabase)
    (h : lookupA (formatDbMapKeyName name) p.databases = some db) :
    SessionDatabase (fuel + 1) w p fs name =
      (p, fs, .ok (some (wrapForStandby db p.isStandby), true, none)) := by
  simp only [SessionDatabase]
  rw [h]

theorem revisionDbType_ok (db : SqlDatabase) (spec r : Str)
    (h : resolveAncestorSpec db.dbDataDdb spec = .ok r) :
    revisionDbType db spec =
      (match isBranch db r with
       | some caseSensitiveBranchName => .ok (.RevisionTypeBranch, caseSensitiveBranchName)
       | none =>
         if isTag db r then .ok (.RevisionTypeTag, r)
         else if IsValidCommitHash r then .ok (.RevisionTypeCommit, r)
         else .ok (.RevisionTypeNone, [])) := by
  unfold revisionDbType
  rw [h]

/-- Claim C2: after any ancestor suffix has been resolved, revision
classification follows the fixed precedence local branch, then
remote-tracking branch, then tag, then syntactically valid commit
hash, and otherwise RevisionTypeNone — and classification never
returns an error for an unmatched spec. -/
theorem revisionDbType_precedence (db : SqlDatabase) (spec r : Str)
    (h : resolveAncestorSpec db.dbDataDdb spec = .ok r) :
    (∀ bn, isLocalBranch (doltDbs db) r = some bn →
      revisionDbType db spec = .ok (.RevisionTypeBranch, bn)) ∧
    (isLocalBranch (doltDbs db) r = none →
      ∀ bn, isRemoteBranch (doltDbs db) r = some bn →
        revisionDbType db spec = .ok (.RevisionTypeBranch, bn)) ∧
    (isBranch db r = none → isTag db r = true →
      revisionDbType db spec = .ok (.RevisionTypeTag, r)) ∧
    (isBranch db r = none → isTag db r = false → IsValidCommitHash r = true →
      revisionDbType db spec = .ok (.RevisionTypeCommit, r)) ∧
    (isBranch db r = none → isTag db r = false → IsValidCommitHash r = false →
      revisionDbType db spec = .ok (.RevisionTypeNone, [])) := by
  refine ⟨?_, ?_, ?_, ?_, ?_⟩
  · intro bn hbn
    rw [revisionDbType_ok db spec r h]
    have hb : isBranch db r = some bn := by
      unfold isBranch
      rw [hbn]
    rw [hb]
  · intro hl bn hr
    rw [revisionDbType_ok db spec r h]
    have hb : isBranch db r = some bn := by
      unfold isBranch
      rw [hl, hr]
    rw [hb]
  · intro hb ht
    rw [revisionDbType_ok db spec r h, hb, if_pos ht]
  · intro hb ht hc
    rw [revisionDbType_ok db spec r h, hb, if_neg (by simp [ht]), if_pos hc]
  · intro hb ht hc
    rw [revisionDbType_ok db spec r h, hb, if_neg (by simp [ht]), if_neg (by simp [hc])]

/-- Claim C2 witness: the precedence theorem applied to the sample
database and the branch spec main. -/
theorem revisionDbType_precedence_witness :
    revisionDbType (SqlDatabase.database db1Sample) (strL ("main")) =
      .ok (.RevisionTypeBranch, strL ("main")) :=
  (revisionDbType_precedence (SqlDatabase.database db1Sample) (strL ("main")) (strL ("main"))
    (by rfl)).1 (strL ("main")) (by rfl)

/-- Claim C6 counterexample: with standby enabled, a
ReadReplicaDatabase stored in the registry is returned by
SessionDatabase unwrapped.  It is not already of the read-only kind,
and it is not wrapped to reject writes, because wrapForStandby wraps
only the plain Database kind. -/
theorem standby_replica_counterexample :
    (SessionDatabase 1 plainWorld standbyProvider emptyFs (strL ("r"))).2.2 =
      .ok (some replicaSample, true, none) ∧
    isReadOnlyKind replicaSample = false ∧
    standbyProvider.isStandby = true := by
  refine ⟨by rfl, by rfl, by rfl⟩

/-- Claim C6 (amended): while standby is enabled, every plain Database
returned by a lookup is wrapped read-only and an already-read-only
database is returned as-is, while a ReadReplicaDatabase is returned
unwrapped; a registry map hit returns exactly the standby wrapping of
the stored entry, leaving the provider untouched; and toggling
SetIsStandby true then false leaves the stored registry maps unchanged
and restores unwrapped, read-write results. -/
theorem standby_wrapping (p : DoltDatabaseProvider) :
    (∀ d, wrapForStandby (.database d) true = .readOnly d) ∧
    (∀ d, wrapForStandby (.readOnly d) true = .readOnly d) ∧
    (∀ d s, wrapForStandby (.readReplica d s) true = .readReplica d s) ∧
    (∀ db, wrapForStandby db false = db) ∧
    (SetIsStandby (SetIsStandby p true) false).databases = p.databases ∧
    (SetIsStandby (SetIsStandby p true) false).dbLocations = p.dbLocations ∧
    (SetIsStandby (SetIsStandby p true) false).isStandby = false ∧
    (∀ fuel w fs name db, lookupA (formatDbMapKeyName name) p.databases = some db →
      SessionDatabase (fuel + 1) w p fs name =
        (p, fs, .ok (some (wrapForStandby db p.isStandby), true, none))) := by
  refine ⟨fun d => rfl, fun d => rfl, fun d s => rfl, wrapForStandby_false, rfl, rfl, rfl, ?_⟩
  intro fuel w fs name db h
  exact sessionDatabase_map_hit fuel w p fs name db h

/-- Claim C6 witness: the amended standby theorem applied to the
standby provider holding the read replica r. -/
theorem standby_wrapping_witness :
    SessionDatabase (0 + 1) plainWorld standbyProvider emptyFs (strL ("r")) =
      (standbyProvider, emptyFs,
        .ok (some (wrapForStandby replicaSample standbyProvider.isStandby), true, none)) :=
  (standby_wrapping standbyProvider).2.2.2.2.2.2.2 0 plainWorld emptyFs (strL ("r"))
    replicaSample (by rfl)

/-- Claim C10: NewDoltDatabaseProviderWithDatabases keys the database
map by the lower-cased name but the location map by the original-case
name; consequently, for an initial database whose name contains an
upper-case letter, SessionDatabase finds the database while
FileSystemForDatabase on the lower-cased key reports
database-not-found, and DropDatabase fails database-not-found at its
location lookup. -/
theorem provider_location_key_mismatch (defaultBranch rootPath loc : Str) (d : Database)
    (w : World) (fs : Fs) (p : DoltDatabaseProvider) (fuel : Nat)
    (hnd : containsDelim d.name = false)
    (hcase : strToLower d.name ≠ d.name)
    (hrev : d.revision = [])
    (hclose : w.closeErr = none)
    (hmk : NewDoltDatabaseProviderWithDatabases defaultBranch rootPath
      [.database d] [loc] = .ok p) :
    lookupA (strToLower d.name) p.databases = some (.database d) ∧
    lookupA d.name p.dbLocations = some loc ∧
    SessionDatabase (fuel + 1) w p fs d.name =
      (p, fs, .ok (some (.database d), true, none)) ∧
    FileSystemForDatabase p (strToLower d.name) =
      .error (.databaseNotFound (strToLower d.name)) ∧
    DropDatabase (fuel + 1) w p fs d.name =
      (p, fs, .ok (some (.databaseNotFound d.name))) := by
  unfold NewDoltDatabaseProviderWithDatabases at hmk
  rw [if_neg (by simp)] at hmk
  injection hmk with hpe
  subst hpe
  set p : DoltDatabaseProvider :=
    { databases := [(strToLower d.name, SqlDatabase.database d)]
      dbLocations := [(d.name, loc)]
      isStandby := false
      defaultBranch := defaultBranch
      rootPath := rootPath
      remoteDialerSet := false
      initHookIsDefault := true
      initHookOracleErr := none } with hp
  have h1 : lookupA (strToLower d.name) p.databases = some (SqlDatabase.database d) := by
    show lookupA (strToLower d.name) [(strToLower d.name, SqlDatabase.database d)] = _
    simp [lookupA]
  have h2 : lookupA d.name p.dbLocations = some loc := by
    show lookupA d.name [(d.name, loc)] = _
    simp [lookupA]
  have hkey : formatDbMapKeyName d.name = strToLower d.name := formatDbMapKeyName_nodelim _ hnd
  have hlookup : lookupA (formatDbMapKeyName d.name) p.databases =
      some (SqlDatabase.database d) := by
    rw [hkey]
    exact h1
  have hsess : SessionDatabase (fuel + 1) w p fs d.name =
      (p, fs, .ok (some (SqlDatabase.database d), true, none)) := by
    rw [sessionDatabase_map_hit fuel w p fs d.name (SqlDatabase.database d) hlookup]
    have : p.isStandby = false := rfl
    rw [this, wrapForStandby_false]
  have hlocmiss : lookupA (strToLower d.name) p.dbLocations = none := by
    show lookupA (strToLower d.name) [(d.name, loc)] = none
    simp only [lookupA]
    rw [if_neg (fun he => hcase he.symm)]
  have h4 : FileSystemForDatabase p (strToLower d.name) =
      .error (.databaseNotFound (strToLower d.name)) := by
    unfold FileSystemForDatabase
    rw [hlocmiss]
  have hrevdb : isRevisionDatabase (fuel + 1) w p fs d.name = (p, fs, .ok (.ok false)) := by
    unfold isRevisionDatabase
    rw [hsess]
    simp [SqlDatabase.revisionPart, SqlDatabase.base, hrev]
  have h5 : DropDatabase (fuel + 1) w p fs d.name =
      (p, fs, .ok (some (.databaseNotFound d.name))) := by
    unfold DropDatabase
    rw [hrevdb]
    show (match lookupA (formatDbMapKeyName d.name) p.databases with
      | none => (p, fs, Res.panicked)
      | some db =>
        match db with
        | .database d2 =>
          match w.closeErr with
          | some e => (p, fs, .ok (some e))
          | none =>
            match lookupA (formatDbMapKeyName d.name) p.dbLocations with
            | none => (p, fs, .ok (some (.databaseNotFound (SqlDatabase.database d2).name)))
            | some dbLoc =>
              match w.singletonCacheErr with
              | some e => (p, fs, .ok (some e))
              | none => dropDeleteAndPurge w p fs d.name (SqlDatabase.database d2).name dbLoc
        | _ => (p, fs, Res.panicked)) = (p, fs, .ok (some (.databaseNotFound d.name)))
    rw [hlookup, hclose, hkey, hlocmiss]
    rfl
  exact ⟨h1, h2, hsess, h4, h5⟩

/-- Claim C10 witness: the key-mismatch theorem applied to a provider
constructed with the single initial database MyDB located at
/data/MyDB. -/
theorem provider_location_key_mismatch_witness :
    FileSystemForDatabase c10provider (strToLower c10db.name) =
      .error (.databaseNotFound (strToLower c10db.name)) ∧
    DropDatabase (0 + 1) plainWorld c10provider emptyFs c10db.name =
      (c10provider, emptyFs, .ok (some (.databaseNotFound c10db.name))) := by
  have h := provider_location_key_mismatch (strL ("main")) (strL ("/data"))
    (strL ("/data/MyDB")) c10db plainWorld emptyFs c10provider 0
    (by decide) (by decide) (by rfl) (by rfl) (by rfl)
  exact ⟨h.2.2.2.1, h.2.2.2.2⟩

theorem existsPath_deletePath (fs : Fs) (q : Str) :
    ((fs.deletePath q).existsPath q).1 = false := by
  unfold Fs.deletePath Fs.existsPath
  have hgen : ∀ l : List Str, (l.filter (fun x => decide (x ≠ q))).contains q = false := by
    intro l
    by_contra hx
    have hx2 : (l.filter (fun x => decide (x ≠ q))).contains q = true := by
      revert hx
      cases (l.filter (fun x => decide (x ≠ q))).contains q <;> simp
    have hm : q ∈ l.filter (fun x => decide (x ≠ q)) := by
      rw [show (l.filter (fun x => decide (x ≠ q))).contains q =
        (l.filter (fun x => decide (x ≠ q))).elem q from rfl] at hx2
      exact List.elem_iff.1 hx2
    have := List.of_mem_filter hm
    simp at this
  simp [hgen]

/-- Claim C5: when the target did not already exist and the inner
clone fails at any point, CloneDatabaseFromRemote performs best-effort
cleanup: when the cleanup delete succeeds — or nothing was written —
the target does not exist afterward and the original error is
returned unchanged; when the cleanup delete itself fails, the
returned error is the original failure annotated with the secondary
cleanup message, never replaced by it. -/
theorem cloneDatabaseFromRemote_cleanup (w : World) (p : DoltDatabaseProvider) (fs : Fs)
    (dbName branch remoteName remoteUrl : Str) (e : Err)
    (p1 : DoltDatabaseProvider) (fs1 : Fs)
    (hex : (fs.existsPath dbName).1 = false)
    (hinner : cloneDatabaseFromRemote w p fs dbName remoteName branch remoteUrl =
      (p1, fs1, .error e)) :
    (w.deleteErr = none →
      (((CloneDatabaseFromRemote w p fs dbName branch remoteName remoteUrl).2.1.existsPath
        dbName).1 = false ∧
       (CloneDatabaseFromRemote w p fs dbName branch remoteName remoteUrl).2.2 = .error e)) ∧
    (∀ d, w.deleteErr = some d → (fs1.existsPath dbName).1 = true →
      (CloneDatabaseFromRemote w p fs dbName branch remoteName remoteUrl).2.2 =
        .error (.cloneCleanupFailed e dbName)) := by
  have houter : CloneDatabaseFromRemote w p fs dbName branch remoteName remoteUrl =
      (if (fs1.existsPath dbName).1 then
        match w.deleteErr with
        | none => (p1, fs1.deletePath dbName, .error e)
        | some _ => (p1, fs1, .error (.cloneCleanupFailed e dbName))
      else (p1, fs1, .error e)) := by
    unfold CloneDatabaseFromRemote
    rw [hex]
    rw [if_neg (by simp), if_neg Bool.false_ne_true]
    rw [hinner]
  constructor
  · intro hdel
    rw [houter, hdel]
    by_cases hfs : (fs1.existsPath dbName).1 = true
    · rw [if_pos hfs]
      exact ⟨existsPath_deletePath fs1 dbName, rfl⟩
    · rw [if_neg hfs]
      refine ⟨?_, rfl⟩
      revert hfs
      cases (fs1.existsPath dbName).1 <;> simp
  · intro d hdel hfs
    rw [houter, hdel, if_pos hfs]

/-- Claim C5 witness: the cleanup theorem applied to a clone of base
that fails at CloneRemote, after the target directory was created. -/
theorem cloneDatabaseFromRemote_cleanup_witness :
    (((CloneDatabaseFromRemote { cloneWorld with cloneRemoteErr := some (.oracleErr 1) }
        emptyProviderDialer emptyFs (strL ("base")) (strL ("main")) (strL ("origin"))
        (strL ("http://base"))).2.1.existsPath (strL ("base"))).1 = false) ∧
    ((CloneDatabaseFromRemote { cloneWorld with cloneRemoteErr := some (.oracleErr 1) }
        emptyProviderDialer emptyFs (strL ("base")) (strL ("main")) (strL ("origin"))
        (strL ("http://base"))).2.2 = .error (.oracleErr 1)) :=
  (cloneDatabaseFromRemote_cleanup { cloneWorld with cloneRemoteErr := some (.oracleErr 1) }
    emptyProviderDialer emptyFs (strL ("base")) (strL ("main")) (strL ("origin"))
    (strL ("http://base")) (.oracleErr 1) emptyProviderDialer ⟨[strL ("base")], []⟩
    (by rfl) (by rfl)).1 (by rfl)

/-- Claim C1 (code bug): the clone-failure path behaves as the claim
states — with replication configured and the remote fetch failing,
looking up the unknown name other yields (nil, false, nil) with no
error — but when the on-demand clone of the base SUCCEEDS and the
retried lookup still misses (the revision part nope matches no branch,
tag or commit hash of the clone), the retried Database call returns a
nil database with a not-found error and the single-value type
assertion database.(dsess.SqlDatabase) in databaseForClone panics,
instead of producing the claimed (nil, false, nil). -/
theorem sessionDatabase_clone_retry_panics :
    SessionDatabase 2 cloneWorld emptyProviderDialer emptyFs (strL ("other")) =
      (emptyProviderDialer, emptyFs, .ok (none, false, none)) ∧
    (SessionDatabase 3 cloneWorld emptyProviderDialer emptyFs (strL ("base/nope"))).2.2 =
      Res.panicked := by
  refine ⟨by rfl, by rfl⟩

theorem charLower_eq_delim_iff (c : Char) :
    (charLower c = dbRevisionDelimiter) ↔ (c = dbRevisionDelimiter) := by
  unfold charLower Char.toLower dbRevisionDelimiter
  by_cases h : c.toNat ≥ 65 ∧ c.toNat ≤ 90
  · rw [if_pos h]
    constructor
    · intro he
      have h2 : (Char.ofNat (c.toNat + 32)).toNat = Char.toNat '/' := congrArg Char.toNat he
      rw [char_toNat_ofNat _ (by constructor; omega)] at h2
      have h47 : Char.toNat '/' = 47 := by decide
      omega
    · intro he
      exact absurd h (by subst he; decide)
  · rw [if_neg h]

theorem charUpper_eq_delim_iff (c : Char) :
    (charUpper c = dbRevisionDelimiter) ↔ (c = dbRevisionDelimiter) := by
  unfold charUpper Char.toUpper dbRevisionDelimiter
  by_cases h : c.toNat ≥ 97 ∧ c.toNat ≤ 122
  · rw [if_pos h]
    constructor
    · intro he
      have h2 : (Char.ofNat (c.toNat - 32)).toNat = Char.toNat '/' := congrArg Char.toNat he
      rw [char_toNat_ofNat _ (by constructor; omega)] at h2
      have h47 : Char.toNat '/' = 47 := by decide
      omega
    · intro he
      exact absurd h (by subst he; decide)
  · rw [if_neg h]

theorem containsDelim_strToLower (s : Str) :
    containsDelim (strToLower s) = containsDelim s := by
  induction s with
  | nil => rfl
  | cons c rest ih =>
    unfold containsDelim strToLower at ih ⊢
    simp only [List.map_cons, List.any_cons]
    rw [ih]
    congr 1
    exact decide_eq_decide.mpr (charLower_eq_delim_iff c)

theorem containsDelim_strToUpper (s : Str) :
    containsDelim (strToUpper s) = containsDelim s := by
  induction s with
  | nil => rfl
  | cons c rest ih =>
    unfold containsDelim strToUpper at ih ⊢
    simp only [List.map_cons, List.any_cons]
    rw [ih]
    congr 1
    exact decide_eq_decide.mpr (charUpper_eq_delim_iff c)

theorem containsDelim_append (d r : Str) :
    containsDelim (d ++ dbRevisionDelimiter :: r) = true := by
  unfold containsDelim
  simp [List.any_append, List.any_cons]

theorem splitOnceDelim_append (d r : Str) (hd : containsDelim d = false) :
    splitOnceDelim (d ++ dbRevisionDelimiter :: r) = (d, r) := by
  induction d with
  | nil => simp [splitOnceDelim]
  | cons c rest ih =>
    unfold containsDelim at hd
    simp only [List.any_cons, Bool.or_eq_false_iff, decide_eq_false_iff_not] at hd
    simp only [List.cons_append, splitOnceDelim]
    rw [if_neg hd.1]
    have ih2 := ih (by unfold containsDelim; simp [hd.2])
    simp only [List.append_eq]
    rw [ih2]

theorem formatDbMapKeyName_append (d r : Str) (hd : containsDelim d = false) :
    formatDbMapKeyName (d ++ dbRevisionDelimiter :: r) =
      strToLower d ++ dbRevisionDelimiter :: r := by
  unfold formatDbMapKeyName
  rw [if_neg (by simp [containsDelim_append])]
  rw [splitOnceDelim_append d r hd]

theorem databaseForRevision_case_eq (w : World) (p : DoltDatabaseProvider)
    (d r : Str) (hd : containsDelim d = false) :
    databaseForRevision w p (strToLower d ++ dbRevisionDelimiter :: r) =
      databaseForRevision w p (strToUpper d ++ dbRevisionDelimiter :: r) := by
  have hl : containsDelim (strToLower d) = false := by rw [containsDelim_strToLower]; exact hd
  have hu : containsDelim (strToUpper d) = false := by rw [containsDelim_strToUpper]; exact hd
  unfold databaseForRevision
  rw [containsDelim_append (strToLower d) r, containsDelim_append (strToUpper d) r]
  rw [splitOnceDelim_append _ r hl, splitOnceDelim_append _ r hu]
  rw [formatDbMapKeyName_nodelim _ hl, formatDbMapKeyName_nodelim _ hu]
  rw [strToLower_strToLower, strToLower_strToUpper]

theorem databaseForCloneOf_inactive
    (sdb : DoltDatabaseProvider → Fs → Str →
      DoltDatabaseProvider × Fs × Res (Option SqlDatabase × Bool × Option Err))
    (w : World) (p : DoltDatabaseProvider) (fs : Fs) (revDB : Str)
    (hrep : readReplicationActive w = false) :
    databaseForCloneOf sdb w p fs revDB = (p, fs, .ok (none, none)) := by
  unfold databaseForCloneOf
  rw [hrep]
  rfl

/-- Claim C3 counterexample: with read-replica cloning configured and
the remote serving only the lower-case database name ab, looking up
ab/main (lower(aB) plus revision) succeeds through an on-demand clone
while AB/main (upper(aB) plus the same revision) does not — the clone
URL substitutes the base name case-preserved, so the two lookups do
not yield the same database. -/
theorem sessionDatabase_case_counterexample :
    strToLower (strL ("aB")) = strL ("ab") ∧
    strToUpper (strL ("aB")) = strL ("AB") ∧
    (SessionDatabase 3 cloneWorldLower emptyProviderDialer emptyFs (strL ("ab/main"))).2.2 ≠
      (SessionDatabase 3 cloneWorldLower emptyProviderDialer emptyFs (strL ("AB/main"))).2.2 := by
  refine ⟨by decide, by decide, by decide⟩

/-- Claim C3 (amended): lookup keys treat the base database name
case-insensitively and the revision suffix case-sensitively — provided
the lookup does not trigger a read-replica on-demand clone (whose
remote URL substitutes the base name case-preserved): with replication
inactive, SessionDatabase on lower(D) + delimiter + R and
upper(D) + delimiter + R return identical results, and the lookup keys
for D + delimiter + R1 and D + delimiter + R2 are distinct whenever R1
and R2 differ as strings. -/
theorem sessionDatabase_caseKeys (w : World) (p : DoltDatabaseProvider) (fs : Fs)
    (d r r1 r2 : Str) (fuel : Nat)
    (hd : containsDelim d = false)
    (hrep : readReplicationActive w = false)
    (hne : r1 ≠ r2) :
    SessionDatabase fuel w p fs (strToLower d ++ dbRevisionDelimiter :: r) =
      SessionDatabase fuel w p fs (strToUpper d ++ dbRevisionDelimiter :: r) ∧
    formatDbMapKeyName (d ++ dbRevisionDelimiter :: r1) ≠
      formatDbMapKeyName (d ++ dbRevisionDelimiter :: r2) := by
  constructor
  · have hl : containsDelim (strToLower d) = false := by
      rw [containsDelim_strToLower]; exact hd
    have hu : containsDelim (strToUpper d) = false := by
      rw [containsDelim_strToUpper]; exact hd
    have hk : formatDbMapKeyName (strToLower d ++ dbRevisionDelimiter :: r) =
        formatDbMapKeyName (strToUpper d ++ dbRevisionDelimiter :: r) := by
      rw [formatDbMapKeyName_append _ r hl, formatDbMapKeyName_append _ r hu]
      rw [strToLower_strToLower, strToLower_strToUpper]
    cases fuel with
    | zero => rfl
    | succ fuel =>
      simp only [SessionDatabase]
      rw [hk, databaseForRevision_case_eq w p d r hd]
      rw [databaseForCloneOf_inactive _ w p fs _ hrep,
        databaseForCloneOf_inactive _ w p fs _ hrep]
  · rw [formatDbMapKeyName_append d r1 hd, formatDbMapKeyName_append d r2 hd]
    intro he
    have h2 := List.append_cancel_left he
    exact hne (by injection h2)

theorem lookupA_eraseA {α : Type} (k : Str) (m : List (Str × α)) :
    lookupA k (eraseA k m) = none := by
  unfold eraseA
  induction m with
  | nil => rfl
  | cons kv rest ih =>
    by_cases hk : kv.1 = k
    · rw [List.filter_cons]
      rw [if_neg (by simp [hk])]
      exact ih
    · rw [List.filter_cons]
      rw [if_pos (by simp [hk])]
      unfold lookupA
      rw [if_neg hk]
      exact ih

theorem dropFinish_clean (w : World) (p : DoltDatabaseProvider) (fs : Fs)
    (name dirToDelete : Str) (p2 : DoltDatabaseProvider) (fs2 : Fs)
    (h : dropFinish w p fs name dirToDelete = (p2, fs2, .ok none)) :
    lookupA (formatDbMapKeyName name) p2.databases = none ∧
    ∀ kv ∈ p2.databases,
      strStartsWith (strToLower (formatDbMapKeyName name ++ [dbRevisionDelimiter]))
        (strToLower kv.1) = false := by
  unfold dropFinish at h
  rcases hd : w.deleteErr with _ | e
  · rw [hd] at h
    injection h with h1 h23
    rw [← h1]
    constructor
    · exact lookupA_eraseA _ _
    · intro kv hkv
      have hm : kv ∈ p.databases.filter (fun kv =>
          !(strStartsWith (strToLower (formatDbMapKeyName name ++ [dbRevisionDelimiter]))
            (strToLower kv.1))) := List.mem_of_mem_filter hkv
      have hp := List.of_mem_filter hm
      revert hp
      cases strStartsWith (strToLower (formatDbMapKeyName name ++ [dbRevisionDelimiter]))
        (strToLower kv.1) <;> simp
  · rw [hd] at h
    simp at h

theorem dropDeleteAndPurge_clean (w : World) (p : DoltDatabaseProvider) (fs : Fs)
    (name disp dbLoc : Str) (p2 : DoltDatabaseProvider) (fs2 : Fs)
    (h : dropDeleteAndPurge w p fs name disp dbLoc = (p2, fs2, .ok none)) :
    lookupA (formatDbMapKeyName name) p2.databases = none ∧
    ∀ kv ∈ p2.databases,
      strStartsWith (strToLower (formatDbMapKeyName name ++ [dbRevisionDelimiter]))
        (strToLower kv.1) = false := by
  unfold dropDeleteAndPurge at h
  by_cases hr : p.rootPath = dbLoc
  · rw [if_pos hr] at h
    by_cases he : (fs.existsPath doltDirName).1 = false
    · rw [if_pos he] at h
      simp at h
    · rw [if_neg he] at h
      exact dropFinish_clean w p fs name doltDirName p2 fs2 h
  · rw [if_neg hr] at h
    by_cases he1 : (fs.existsPath dbLoc).1 = false
    · rw [if_pos he1] at h
      simp at h
    · rw [if_neg he1] at h
      by_cases he2 : (fs.existsPath dbLoc).2 = false
      · rw [if_pos he2] at h
        simp at h
      · rw [if_neg he2] at h
        exact dropFinish_clean w p fs name dbLoc p2 fs2 h

/-- Claim C4: DropDatabase fails with an error whenever the name
resolves to a revision-qualified (derivative) database; and after a
successful DropDatabase, neither the primary entry nor any registry
entry whose (lower-cased) name begins with the dropped key followed by
the revision delimiter remains in the database map. -/
theorem dropDatabase_spec (fuel : Nat) (w : World) (p : DoltDatabaseProvider) (fs : Fs)
    (name : Str) :
    (∀ p1 fs1 db, SessionDatabase fuel w p fs name = (p1, fs1, .ok (some db, true, none)) →
      db.revisionPart ≠ [] →
      DropDatabase fuel w p fs name = (p1, fs1, .ok (some (.cannotDropRevisionDb name)))) ∧
    (∀ p2 fs2, DropDatabase fuel w p fs name = (p2, fs2, .ok none) →
      lookupA (formatDbMapKeyName name) p2.databases = none ∧
      ∀ kv ∈ p2.databases,
        strStartsWith (strToLower (formatDbMapKeyName name ++ [dbRevisionDelimiter]))
          (strToLower kv.1) = false) := by
  constructor
  · intro p1 fs1 db h hrev
    unfold DropDatabase isRevisionDatabase
    rw [h]
    simp [hrev]
  · intro p2 fs2 hdone
    unfold DropDatabase at hdone
    split at hdone
    · simp at hdone
    · simp at hdone
    · simp at hdone
    · simp at hdone
    · split at hdone
      · simp at hdone
      · split at hdone
        · split at hdone
          · simp at hdone
          · split at hdone
            · simp at hdone
            · split at hdone
              · simp at hdone
              · exact dropDeleteAndPurge_clean _ _ _ _ _ _ _ _ hdone
        · simp at hdone

/-- Claim C4 witness: dropping db1 from the concrete provider that
also stores the derivative db1/b1 leaves the database map without the
primary key db1 and without any db1-slash-prefixed derivative. -/
theorem dropDatabase_spec_witness :
    lookupA (formatDbMapKeyName (strL ("db1")))
      (DropDatabase 1 plainWorld dropProvider dropFs (strL ("db1"))).1.databases = none := by
  have h := (dropDatabase_spec 1 plainWorld dropProvider dropFs (strL ("db1"))).2
    (DropDatabase 1 plainWorld dropProvider dropFs (strL ("db1"))).1
    (DropDatabase 1 plainWorld dropProvider dropFs (strL ("db1"))).2.1
    (by rfl)
  exact h.1

/-- Claim C3 witness: the amended case-sensitivity theorem applied to
the base name Ab with revision main, and to the distinct revision
specs x and y, on a provider without replication. -/
theorem sessionDatabase_caseKeys_witness :
    SessionDatabase 1 plainWorld emptyProviderDialer emptyFs
        (strToLower (strL ("Ab")) ++ dbRevisionDelimiter :: strL ("main")) =
      SessionDatabase 1 plainWorld emptyProviderDialer emptyFs
        (strToUpper (strL ("Ab")) ++ dbRevisionDelimiter :: strL ("main")) ∧
    formatDbMapKeyName (strL ("Ab") ++ dbRevisionDelimiter :: strL ("x")) ≠
      formatDbMapKeyName (strL ("Ab") ++ dbRevisionDelimiter :: strL ("y")) :=
  sessionDatabase_caseKeys plainWorld emptyProviderDialer emptyFs
    (strL ("Ab")) (strL ("main")) (strL ("x")) (strL ("y")) 1
    (by decide) (by decide) (by decide)

end Dolt
